import Mathlib

/-!
Verification of the forecast training/inference core of the cripto_traker
repository against its specification.

The development shallow-embeds the relevant Python services as Lean
definitions:

* `web/app/services/jobs.py` — the single-flight background job runner
  (the in-memory job table becomes a list of `Job` records; the job
  dictionary is keyed by `job_key`, wall-clock timestamps and the
  background thread itself are not modelled, only whether a new thread
  would be spawned).
* `web/app/services/model_registry.py` — canonical hyperparameter
  normalization and the content-addressed model key.  The JSON value
  universe is `ConfigValue`; the sha256 digest is an abstract `digest`
  parameter (a pure function of the canonically encoded payload, exactly
  as `hashlib.sha256(encoded).hexdigest()[:8]` is).
* `web/app/services/rnn.py` and `web/app/services/global_training.py` —
  the chunk-size resolvers, the validation-split resolver (Python float
  arithmetic modelled as exact rational arithmetic over `ℚ`), the
  training sizing pipeline, and the delete-then-insert forecast storage.
* `web/app/services/global_inference.py` — the predict pipeline and the
  chained price reconstruction (the external `math.exp` is an abstract
  function parameter `expf`).

Machine integers do not occur: Python integers are unbounded, so `Int`
and `Nat` are the faithful carriers.
-/

/-! ## Job runner (`web/app/services/jobs.py`)

A `Job` models one entry of the module-level `_JOBS` dictionary.  The
fields `result`, `error`, `started_at` and `finished_at`, and the busy
status extras (`active_job_key`, `active_job_type`, `active_label`) are
not modelled: they are wall-clock or reporting data never consulted by
the admission logic.  The job table is the list of dictionary values in
insertion order; dictionary assignment replaces in place.
-/

structure Job where
  jobKey : String
  jobType : String
  label : String
  state : String
  message : String
  deriving Repr, DecidableEq

/-- Embeds `_find_running_job`: the first table entry whose state is
`running`, scanning in insertion order. -/
def findRunningJob (tbl : List Job) : Option Job :=
  tbl.find? (fun j => j.state == "running")

/-- Embeds `_JOBS.get(job_key)`: lookup by key. -/
def lookupJob (tbl : List Job) (k : String) : Option Job :=
  tbl.find? (fun j => j.jobKey == k)

/-- Embeds `_JOBS[job_key] = job`: replace the entry with that key in
place, or append when absent. -/
def setJob (tbl : List Job) (j : Job) : List Job :=
  if tbl.any (fun x => x.jobKey == j.jobKey) then
    tbl.map (fun x => if x.jobKey == j.jobKey then j else x)
  else
    tbl ++ [j]

/-- Result of `start_job`: the returned status dictionary, the job table
after the call, and whether a background thread was spawned. -/
structure StartResult where
  status : Job
  table : List Job
  started : Bool
  deriving Repr, DecidableEq

/-- Embeds the job-creation tail of `start_job` (lines 47-64): install a
fresh `running` job under the key and spawn the worker thread. -/
def startJobInsert (tbl : List Job) (jobKey jobType label : String) : StartResult :=
  let job : Job := ⟨jobKey, jobType, label, "running", label ++ " update running."⟩
  ⟨job, setJob tbl job, true⟩

/-- Embeds the middle of `start_job` (lines 43-45): return the existing
running job for the same key instead of starting a duplicate, otherwise
create a fresh job. -/
def startJobProceed (tbl : List Job) (jobKey jobType label : String) : StartResult :=
  match lookupJob tbl jobKey with
  | some existing =>
    if existing.state == "running" then ⟨existing, tbl, false⟩
    else startJobInsert tbl jobKey jobType label
  | none => startJobInsert tbl jobKey jobType label

/-- Embeds `start_job` (lines 25-64).  Under the job-table lock: if some
job is running and its key differs from the requested one, answer `busy`
without touching the table; otherwise fall through to the
create-or-return-existing logic. -/
def startJob (tbl : List Job) (jobKey jobType label : String) : StartResult :=
  match findRunningJob tbl with
  | some runningJob =>
    if runningJob.jobKey ≠ jobKey then
      ⟨⟨jobKey, jobType, label, "busy", runningJob.label ++ " update already running."⟩,
        tbl, false⟩
    else
      startJobProceed tbl jobKey jobType label
  | none => startJobProceed tbl jobKey jobType label

/-! ## Model registry (`web/app/services/model_registry.py`)

`ConfigValue` is the universe of JSON values that can occur inside the
hyperparameter configuration handed to `canonical_model_key`.  A Python
`dict` is a list of key/value entries in insertion order with pairwise
distinct keys; a `list` or `tuple` is `arr`.  Python floats that reach
the registry are modelled as exact rationals.
-/

inductive ConfigValue where
  | str : String → ConfigValue
  | int : Int → ConfigValue
  | rat : ℚ → ConfigValue
  | bool : Bool → ConfigValue
  | null : ConfigValue
  | arr : List ConfigValue → ConfigValue
  | obj : List (String × ConfigValue) → ConfigValue
  deriving Repr

/-- Order on dictionary entries: code point lexicographic order of the
keys, exactly the order Python `sorted` uses on `str` keys.  Comparing
the underlying character lists keeps the order kernel-computable. -/
def entryLe (a b : String × ConfigValue) : Prop :=
  a.1.data ≤ b.1.data

instance : DecidableRel entryLe :=
  fun a b => inferInstanceAs (Decidable (a.1.data ≤ b.1.data))

instance : IsTotal (String × ConfigValue) entryLe :=
  ⟨fun a b => le_total a.1.data b.1.data⟩

instance : IsTrans (String × ConfigValue) entryLe :=
  ⟨fun _ _ _ h₁ h₂ => le_trans h₁ h₂⟩

/-- Strict version of `entryLe`, used to see that a key-sorted list of
entries with pairwise distinct keys is unique. -/
def entryLt (a b : String × ConfigValue) : Prop :=
  a.1.data < b.1.data

instance : IsAntisymm (String × ConfigValue) entryLt :=
  ⟨fun _ _ h₁ h₂ => (lt_asymm h₁ h₂).elim⟩

/-- Embeds Python `sorted` over the keys of a dict: the entries sorted by
key. -/
def sortEntries (es : List (String × ConfigValue)) : List (String × ConfigValue) :=
  List.insertionSort entryLe es

mutual

/-- Embeds `_normalize_config` (model_registry.py lines 24-29): sort the
keys of every mapping recursively, preserve sequence order.  The Python
comprehension sorts the keys first and then normalizes each looked-up
value; since sorting inspects keys only and normalization keeps keys
unchanged, normalizing entries first and then sorting is the same
function. -/
def normalizeConfig : ConfigValue → ConfigValue
  | .str s => .str s
  | .int n => .int n
  | .rat q => .rat q
  | .bool b => .bool b
  | .null => .null
  | .arr xs => .arr (normalizeConfigList xs)
  | .obj es => .obj (sortEntries (normalizeConfigEntries es))

/-- Pointwise normalization of a JSON array. -/
def normalizeConfigList : List ConfigValue → List ConfigValue
  | [] => []
  | x :: xs => normalizeConfig x :: normalizeConfigList xs

/-- Normalization of the values of dict entries, keys unchanged. -/
def normalizeConfigEntries : List (String × ConfigValue) → List (String × ConfigValue)
  | [] => []
  | (k, v) :: es => (k, normalizeConfig v) :: normalizeConfigEntries es

end

mutual

/-- Embeds `json.dumps(payload, sort_keys=True, separators=(",", ":"))`
applied to an already key-sorted value: compact JSON rendering.  The
exact decimal rendering of floats is irrelevant to every claim; rationals
are rendered as `num/den`, which is a deterministic injective rendering
just as `repr(float)` is. -/
def encodeConfig : ConfigValue → String
  | .str s => "\"" ++ s ++ "\""
  | .int n => toString n
  | .rat q => toString q.num ++ "/" ++ toString q.den
  | .bool b => if b then "true" else "false"
  | .null => "null"
  | .arr xs => "[" ++ String.intercalate "," (encodeConfigList xs) ++ "]"
  | .obj es => "\x7b" ++ String.intercalate "," (encodeConfigEntries es) ++ "\x7d"

/-- Rendered elements of a JSON array. -/
def encodeConfigList : List ConfigValue → List String
  | [] => []
  | x :: xs => encodeConfig x :: encodeConfigList xs

/-- Rendered `"key":value` members of a JSON object. -/
def encodeConfigEntries : List (String × ConfigValue) → List String
  | [] => []
  | (k, v) :: es => ("\"" ++ k ++ "\":" ++ encodeConfig v) :: encodeConfigEntries es

end

/-- Embeds `_default_work_dir` with the `DARTS_WORK_DIR` environment
variable unset (the environment is external state, fixed per process). -/
def defaultWorkDir : String := "/var/lib/app/darts"

/-- The `(model_name, work_dir, artifact_path_pt)` triple returned by
`canonical_model_key`. -/
structure ModelKey where
  modelName : String
  workDir : String
  artifactPathPt : String
  deriving Repr, DecidableEq

/-- Lower-casing of the cell type slug, `cell_type.lower()`, done on the
character list so that it is kernel-computable. -/
def lowerSlug (s : String) : String :=
  String.mk (s.data.map Char.toLower)

/-- Underscore removal for the transform slug,
`transform.replace("_", "")`, done on the character list so that it is
kernel-computable. -/
def stripUnderscores (s : String) : String :=
  String.mk (s.data.filter (fun c => c ≠ '_'))

/-- Embeds `canonical_model_key` (model_registry.py lines 36-64).  The
payload dict is serialized with `sort_keys=True`, which sorts every
mapping level; that is `encodeConfig` after `normalizeConfig`.  `digest`
abstracts `hashlib.sha256(encoded.encode()).hexdigest()[:8]`: an
arbitrary deterministic function of the encoded payload. -/
def canonicalModelKey (digest : String → String) (scope modelFamily cellType : String)
    (horizonDays : Int) (transform : String)
    (hyperparams : List (String × ConfigValue)) : ModelKey :=
  let payload : ConfigValue := .obj
    [("scope", .str scope),
     ("model_family", .str modelFamily),
     ("cell_type", .str cellType),
     ("horizon_days", .int horizonDays),
     ("transform", .str transform),
     ("hyperparams", normalizeConfig (.obj hyperparams))]
  let encoded := encodeConfig (normalizeConfig payload)
  let dg := digest encoded
  let scopeSlug := if scope == "global_shared" then "global" else "percrypto"
  let familySlug := if modelFamily == "BlockRNNModel" then "blockrnn" else "rnn"
  let cellSlug := lowerSlug cellType
  let transformSlug := stripUnderscores transform
  let modelName := "crypto_" ++ scopeSlug ++ "__" ++ familySlug ++ "__" ++ cellSlug
    ++ "__h" ++ toString horizonDays ++ "__" ++ transformSlug ++ "__" ++ dg
  ⟨modelName, defaultWorkDir, defaultWorkDir ++ "/artifacts/" ++ modelName ++ ".pt"⟩

/-! ## Chunk-size and validation-split resolvers

`_resolve_chunk_lengths`, `_resolve_training_length`,
`_min_required_length`, `_resolve_val_split` and `_split_series` appear
twice in the repository, as textually identical copies in
`web/app/services/rnn.py` (lines 118-188) and
`web/app/services/global_training.py` (lines 111-182); the only
difference is the discriminator string (`model_kind` equal to `rnn`
versus `model_family` equal to `RNNModel`).  Each function is embedded
once, with both discriminator spellings where they differ.

Python float arithmetic in the split resolver is modelled as exact
arithmetic over `ℚ`; `int(x)` on the nonnegative values that occur is
`Int.floor`.
-/

/-- Embeds `_resolve_chunk_lengths` (rnn.py lines 171-182,
global_training.py lines 111-122): shrink the output chunk so at least
five input points remain, cap the input chunk by the remaining length
with floor five, and force-fit when the pair still overflows the
series. -/
def resolveChunkLengths (seriesLen inputChunkLength outputChunkLength : Int) : Int × Int :=
  let minInput : Int := 5
  let outputChunk := max 1 outputChunkLength
  let outputChunk :=
    if seriesLen - outputChunk < minInput then max 1 (seriesLen - minInput)
    else outputChunk
  let inputChunk := min inputChunkLength (seriesLen - outputChunk)
  let inputChunk := max minInput inputChunk
  let inputChunk :=
    if inputChunk + outputChunk > seriesLen then max 3 (seriesLen - outputChunk)
    else inputChunk
  (inputChunk, outputChunk)

/-- Embeds `_resolve_training_length` (rnn.py lines 185-188,
global_training.py lines 125-128): clamp the training length into
`[input_chunk, series_len]`. -/
def resolveTrainingLength (seriesLen inputChunk trainingLength : Int) : Int :=
  max inputChunk (min trainingLength seriesLen)

/-- Embeds `_min_required_length` (rnn.py lines 118-127, with
`model_kind` in `rnn`/`block`): minimum series length for one training
example. -/
def minRequiredLength (modelKind : String)
    (inputChunkLength outputChunkLength trainingLength : Int) : Int :=
  if modelKind == "rnn" then
    max inputChunkLength trainingLength + max 1 outputChunkLength
  else
    inputChunkLength + max 1 outputChunkLength

/-- Embeds `_min_required_length` (global_training.py lines 140-149, with
`model_family` in `RNNModel`/`BlockRNNModel`). -/
def minRequiredLengthFamily (modelFamily : String)
    (inputChunkLength outputChunkLength trainingLength : Int) : Int :=
  if modelFamily == "RNNModel" then
    max inputChunkLength trainingLength + max 1 outputChunkLength
  else
    inputChunkLength + max 1 outputChunkLength

/-- Embeds `_resolve_val_split` (rnn.py lines 130-150, global_training.py
lines 152-172): clamp the requested fraction into a feasible band, then
verify that both sides of the split still hold `min_required` points;
degrade to no validation otherwise. -/
def resolveValSplit (desired : ℚ) (seriesLen minRequired : Int) : ℚ :=
  if desired ≤ 0 ∨ seriesLen ≤ 0 then 0
  else
    let ratio := min (1 / 2 : ℚ) (max 0 desired)
    if minRequired ≤ 0 then ratio
    else
      let minRatio := (minRequired : ℚ) / (seriesLen : ℚ)
      let maxRatio := ((seriesLen : ℚ) - (minRequired : ℚ)) / (seriesLen : ℚ)
      if minRatio > maxRatio ∨ maxRatio ≤ 0 then 0
      else
        let ratio := if ratio < minRatio then minRatio else ratio
        let ratio := if ratio > maxRatio then maxRatio else ratio
        let valLen := ⌊(seriesLen : ℚ) * ratio⌋
        let trainLen := seriesLen - valLen
        if valLen < minRequired ∨ trainLen < minRequired then 0 else ratio

/-- The composite sizing performed by `_train_rnn` (rnn.py lines
205-215) before its validation split: the spec contract
`resolve(series_length, desired_input, desired_output,
desired_training, model_kind)` returning
`(input_chunk, output_chunk, training_length, min_required)`.  For the
single-step family the output chunk entering the chunk resolver is 1 and
the training length is re-derived to exceed the input chunk using the
horizon. -/
def resolveSizingRnnPy (seriesLen inputChunkLength trainingLength outputChunkLength
    horizonDays : Int) (modelKind : String) : Int × Int × Int × Int :=
  let outputChunk0 := if modelKind == "rnn" then 1 else max 1 outputChunkLength
  let p := resolveChunkLengths seriesLen inputChunkLength outputChunk0
  let inputChunk := p.1
  let outputChunk := p.2
  let trainingLength :=
    if modelKind == "rnn" then
      let tl := resolveTrainingLength seriesLen inputChunk trainingLength
      if tl ≤ inputChunk then min seriesLen (inputChunk + max 1 horizonDays) else tl
    else trainingLength
  let minRequired := minRequiredLength modelKind inputChunk outputChunk trainingLength
  (inputChunk, outputChunk, trainingLength, minRequired)

/-- The first pass of `_resolve_sizing` inside `train_global_model`
(global_training.py lines 248-270): chunk resolution against the
shortest series, training-length clamping for the single-step family,
and the resulting minimum required length.  `output_for_chunks` is 1 for
the `RNNModel` family (lines 244-246). -/
def resolveSizingGlobal1 (modelFamily : String)
    (minLen baseInput baseOutput baseTraining : Int) : Int × Int × Int × Int :=
  let outputForChunks := if modelFamily == "RNNModel" then 1 else baseOutput
  let p := resolveChunkLengths minLen baseInput outputForChunks
  let inputChunk := p.1
  let outputChunk := p.2
  let trainingLength :=
    if modelFamily == "RNNModel" then resolveTrainingLength minLen inputChunk baseTraining
    else baseTraining
  let minRequired := minRequiredLengthFamily modelFamily inputChunk outputChunk trainingLength
  (inputChunk, outputChunk, trainingLength, minRequired)

/-- The resolved sizing of one `_resolve_sizing` call. -/
structure Sizing where
  inputChunkLength : Int
  outputChunkLength : Int
  trainingLength : Int
  minRequired : Int
  valSplit : ℚ
  deriving Repr, DecidableEq

/-- Embeds the full `_resolve_sizing` closure of `train_global_model`
(global_training.py lines 248-299): first-pass sizing, validation-split
resolution against it, and — when a positive split shrinks the training
slice — a second chunk/training resize against the shrunk length, with
the minimum required length recomputed at the end. -/
def resolveSizingGlobal (modelFamily : String)
    (minLen baseInput baseOutput baseTraining : Int) (requestedValSplit : ℚ) : Sizing :=
  let outputForChunks := if modelFamily == "RNNModel" then 1 else baseOutput
  let s1 := resolveSizingGlobal1 modelFamily minLen baseInput baseOutput baseTraining
  let inputChunk := s1.1
  let outputChunk := s1.2.1
  let trainingLength := s1.2.2.1
  let minRequired := s1.2.2.2
  let valSplit := resolveValSplit requestedValSplit minLen minRequired
  let minTrainLen :=
    if valSplit > 0 then ⌊(minLen : ℚ) * (1 - valSplit)⌋ else minLen
  if minTrainLen < minLen then
    let p := resolveChunkLengths minTrainLen inputChunk outputForChunks
    let inputChunk2 := p.1
    let outputChunk2 := p.2
    let trainingLength2 :=
      if modelFamily == "RNNModel" then
        resolveTrainingLength minTrainLen inputChunk2 trainingLength
      else trainingLength
    let minRequired2 :=
      minRequiredLengthFamily modelFamily inputChunk2 outputChunk2 trainingLength2
    ⟨inputChunk2, outputChunk2, trainingLength2, minRequired2, valSplit⟩
  else
    ⟨inputChunk, outputChunk, trainingLength, minRequired, valSplit⟩

/-! ## Forecast storage and inference (`web/app/services/global_inference.py`,
storage also in `web/app/services/rnn.py`)

Dates are day numbers (`Int`), prices and forecasts exact rationals.
The two forecast tables `LstmForecast` and `GruForecast` are modelled as
one list of `(table, row)` pairs — the relational store — since the SQL
`delete` is always filtered by one table and one `crypto_id`.
`_to_decimal` is the identity on `ℚ`.
-/

inductive ForecastTable where
  | lstm
  | gru
  deriving Repr, DecidableEq

/-- One row as computed by `_compute_forecast` before storage: the
Python dict with keys `date`, `yhat`, `yhat_lower`, `yhat_upper`. -/
structure FRow where
  date : Int
  yhat : ℚ
  yhatLower : ℚ
  yhatUpper : ℚ
  deriving Repr, DecidableEq

/-- One persisted `LstmForecast`/`GruForecast` row. -/
structure ForecastRow where
  cryptoId : Int
  date : Int
  yhat : ℚ
  yhatLower : ℚ
  yhatUpper : ℚ
  cutoffDate : Int
  horizonDays : Int
  modelRunId : Option Int
  deriving Repr, DecidableEq

/-- The relational store restricted to the two forecast tables. -/
abbrev ForecastDb := List (ForecastTable × ForecastRow)

/-- Whether a stored row belongs to the given table and asset — the
`WHERE` clause of the bulk delete. -/
def rowMatches (table : ForecastTable) (cryptoId : Int)
    (e : ForecastTable × ForecastRow) : Bool :=
  e.1 == table && e.2.cryptoId == cryptoId

/-- Embeds `_store_forecast_rows` (global_inference.py lines 110-139):
nothing on a non-positive horizon or empty row list; otherwise delete
every row of the asset from the table and insert the new records.
Returns the store after the call and the inserted count. -/
def storeForecastRows (db : ForecastDb) (table : ForecastTable) (cryptoId : Int)
    (rows : List FRow) (horizonDays : Int) (cutoffDate : Int)
    (modelRunId : Option Int) : ForecastDb × Nat :=
  if horizonDays ≤ 0 ∨ rows = [] then (db, 0)
  else
    let deleted := db.filter (fun e => !rowMatches table cryptoId e)
    let records := rows.map (fun r =>
      (table, ForecastRow.mk cryptoId r.date r.yhat r.yhatLower r.yhatUpper
        cutoffDate horizonDays modelRunId))
    (deleted ++ records, records.length)

/-- Embeds `_store_forecast` (rnn.py lines 479-532).  The forecast list
itself is produced by the per-asset `_compute_forecast` (an in-process
model training plus prediction); it enters here as the `forecast`
argument, `rowsLen` is `len(rows)` and `cutoffDate` is
`rows[-1]["date"]`.  No delete happens unless a non-empty forecast was
computed. -/
def storeForecastRnn (db : ForecastDb) (table : ForecastTable) (cryptoId : Int)
    (rowsLen : Nat) (forecast : List FRow) (horizonDays : Int) (cutoffDate : Int)
    (modelRunId : Option Int) : ForecastDb × Nat :=
  if horizonDays ≤ 0 ∨ rowsLen < 5 then (db, 0)
  else if forecast = [] then (db, 0)
  else
    let deleted := db.filter (fun e => !rowMatches table cryptoId e)
    let records := forecast.map (fun r =>
      (table, ForecastRow.mk cryptoId r.date r.yhat r.yhatLower r.yhatUpper
        cutoffDate horizonDays modelRunId))
    (deleted ++ records, records.length)

/-- Embeds the future-forecast loop of `_compute_forecast`
(global_inference.py lines 221-240, identically rnn.py lines 457-474):
starting from the last known price, each predicted log return is
converted to price space by `price = prev_price * exp(prediction)` with
the band at `prev_price * exp(prediction ± ci_width)`, the produced
price becomes the next baseline, each output date is the prediction date
shifted back one day, and the loop stops once no baseline price exists.
`expf` abstracts the external `math.exp`. -/
def futureForecastRows (expf : ℚ → ℚ) (ciWidth : ℚ) :
    Option ℚ → List (Int × ℚ) → List FRow
  | _, [] => []
  | none, _ :: _ => []
  | some prevPrice, (pointDate, prediction) :: rest =>
    let priceHat := prevPrice * expf prediction
    let lower := prevPrice * expf (prediction - ciWidth)
    let upper := prevPrice * expf (prediction + ciWidth)
    ⟨pointDate - 1, priceHat, lower, upper⟩
      :: futureForecastRows expf ciWidth (some priceHat) rest

/-- Length of the daily price frame `_build_price_frame` produces
(global_inference.py lines 31-45): after `asfreq("D")` reindexing, the
frame holds one row per calendar day from the earliest to the latest
supplied date, and is `None` on empty input (length 0 here). -/
def priceFrameLen (rows : List (Int × ℚ)) : Int :=
  match rows.map Prod.fst with
  | [] => 0
  | d :: ds => (ds.foldl max d) - (ds.foldl min d) + 1

/-- Length of the log-return series `_build_return_series` produces
(global_inference.py lines 48-56): the frame rows whose `log_return` is
non-null.  With a price present on the first day and forward-filled
positive prices, exactly the first frame row lacks a return. -/
def returnSeriesLen (rows : List (Int × ℚ)) : Int :=
  if rows = [] then 0 else priceFrameLen rows - 1

/-- The guards of `_compute_forecast` (global_inference.py lines
148-153): an empty result on a price frame shorter than 6 days or a
return series shorter than 5 points; past the guards the result is the
externally computed row list (historical walk-forward plus future loop),
which enters as `tail`. -/
def computeForecastGuarded (frameLen seriesLen : Int) (tail : List FRow) : List FRow :=
  if frameLen < 6 then []
  else if seriesLen < 5 then []
  else tail

/-- The `ForecastModelRun` fields consulted by
`predict_with_global_model`. -/
structure ModelRunRec where
  id : Int
  modelFamily : String
  cellType : String
  horizonDays : Int
  trainingCryptoIds : Option (List Int)
  deriving Repr, DecidableEq

/-- Outcome of `predict_with_global_model`: the returned value or raised
error, the forecast store after the call, how many rows were written,
and whether `load_global_model` was reached. -/
structure PredictOutcome where
  result : Except String (List FRow)
  db : ForecastDb
  storedCount : Nat
  modelLoaded : Bool
  deriving Repr

/-- Embeds `predict_with_global_model` (global_inference.py lines
243-285).  `runOpt` is the `session.get` result; `dartsAvailable` is
whether the optional darts import succeeded; `priceRows` is the
`fetch_price_series` result (date-ascending); `modelTail` is the
externally computed forecast content past the `_compute_forecast`
guards. -/
def predictWithGlobalModel (db : ForecastDb) (runOpt : Option ModelRunRec)
    (cryptoId : Int) (horizonDaysOpt : Option Int) (allowUnseen : Bool)
    (dartsAvailable : Bool) (priceRows : List (Int × ℚ))
    (modelTail : List FRow) : PredictOutcome :=
  match runOpt with
  | none => ⟨.error "Model run not found.", db, 0, false⟩
  | some run =>
    let horizonDays := horizonDaysOpt.getD run.horizonDays
    if !allowUnseen && !(run.trainingCryptoIds.getD []).contains cryptoId then
      ⟨.error "Crypto not part of the training set.", db, 0, false⟩
    else if !dartsAvailable then
      ⟨.ok [], db, 0, false⟩
    else if priceRows.length < 5 then
      ⟨.ok [], db, 0, false⟩
    else
      let forecastRows :=
        computeForecastGuarded (priceFrameLen priceRows) (returnSeriesLen priceRows)
          modelTail
      if forecastRows = [] then ⟨.ok [], db, 0, true⟩
      else
        let cutoffDate := ((priceRows.getLast?).map Prod.fst).getD 0
        let table := if run.cellType == "GRU" then ForecastTable.gru else ForecastTable.lstm
        let stored := storeForecastRows db table cryptoId forecastRows horizonDays
          cutoffDate (some run.id)
        ⟨.ok forecastRows, stored.1, stored.2, true⟩

/-! ## Global training (`web/app/services/global_training.py`)

`train_global_model` interleaves pure sizing/selection logic with calls
into darts (series construction, splitting, fitting).  The pure part is
embedded exactly; the external parts enter as parameters:

* each asset arrives as an `AssetPrep` carrying the lengths of its
  prepared price frame and return series (`_build_price_frame` returning
  `None` or an empty frame is length 0);
* `splitLen len ratio` abstracts `len(series.split_before(1 - ratio)[0])`
  for a positive ratio — the training-slice length darts produces;
* `useValPre` abstracts whether the pre-fit validation checks
  (lines 490-506: every validation slice present and long enough,
  covariates complete, matching dimensions) all passed;
* `fitRejectsVal` abstracts whether `model.fit` raised the retryable
  data-shape `ValueError` (lines 517-534), in which case the fit is
  retried without validation.
-/

/-- Per-asset prepared data as consulted by the dropout filter of
`train_global_model` (lines 206-223). -/
structure AssetPrep where
  cryptoId : Int
  frameLen : Int
  returnLen : Int
  deriving Repr, DecidableEq

/-- The dropout condition of lines 209-214: an asset survives when its
price frame has at least 6 days and its return series at least 6
points. -/
def assetSurvives (a : AssetPrep) : Bool :=
  6 ≤ a.frameLen && 6 ≤ a.returnLen

/-- Length of the training slice `_split_series` leaves (lines 175-182):
the whole series for a non-positive split, otherwise the external darts
split length. -/
def trainSliceLen (splitLen : Int → ℚ → Int) (len : Int) (valSplit : ℚ) : Int :=
  if valSplit ≤ 0 then len else splitLen len valSplit

/-- The shortest surviving return series, `min(len(payload["series"]))`
(lines 303-305). -/
def minSeriesLen (p : AssetPrep) (ps : List AssetPrep) : Int :=
  (ps.map AssetPrep.returnLen).foldl min p.returnLen

/-- Embeds the sizing/filter fixpoint loop of `train_global_model`
(lines 301-324): size against the shortest surviving series, drop every
asset whose training slice would be shorter than 5, error out when none
remains, repeat until stable. -/
def selectionLoop (splitLen : Int → ℚ → Int) (resolve : Int → Sizing) :
    List AssetPrep → Except String (List AssetPrep × Sizing)
  | [] => .error "Not enough data to train a global model."
  | p :: ps =>
    let s := resolve (minSeriesLen p ps)
    let kept := (p :: ps).filter
      (fun q => 5 ≤ trainSliceLen splitLen q.returnLen s.valSplit)
    if kept = [] then .error "Not enough data to train a global model."
    else if h : kept.length = (p :: ps).length then
      .ok (kept, s)
    else selectionLoop splitLen resolve kept
  termination_by payloads => payloads.length
  decreasing_by
    simp only [List.length_cons]
    exact lt_of_le_of_ne (List.length_filter_le _ _) h

/-- Embeds the asset selection of `train_global_model` (lines 200-324):
the empty-input guard, the silent dropout of assets with fewer than 6
price-frame days or 6 return points, the insufficient-data error when
none survives, and the sizing/filter fixpoint.  Returns the surviving
assets (whose ids become `training_crypto_ids`, line 330-351) and the
resolved sizing. -/
def trainGlobalSelect (splitLen : Int → ℚ → Int) (modelFamily : String)
    (baseInput baseOutput baseTraining : Int) (requestedValSplit : ℚ)
    (assets : List AssetPrep) : Except String (List AssetPrep × Sizing) :=
  if assets = [] then .error "No crypto ids provided for training."
  else
    let payloads := assets.filter assetSurvives
    if payloads = [] then .error "Not enough data to train a global model."
    else
      selectionLoop splitLen
        (fun minLen =>
          resolveSizingGlobal modelFamily minLen baseInput baseOutput baseTraining
            requestedValSplit)
        payloads

/-- The effective hyperparameter record built at lines 373-385: the
post-resize sizing actually handed to the model constructor and fit,
the passthrough architecture values, and the resolved validation
split. -/
structure EffHyperparams where
  inputChunkLength : Int
  outputChunkLength : Int
  trainingLength : Int
  nRnnLayers : Int
  hiddenDim : Int
  hiddenFcSizes : List Int
  nEpochs : Int
  batchSize : Int
  randomState : Int
  valSplit : ℚ
  saveCheckpoints : Bool
  deriving Repr, DecidableEq

/-- The `effective_hyperparams` dict of lines 373-385 as a `ConfigValue`
entry list, in source insertion order. -/
def effHyperparamsToConfig (e : EffHyperparams) : List (String × ConfigValue) :=
  [("input_chunk_length", .int e.inputChunkLength),
   ("output_chunk_length", .int e.outputChunkLength),
   ("training_length", .int e.trainingLength),
   ("n_rnn_layers", .int e.nRnnLayers),
   ("hidden_dim", .int e.hiddenDim),
   ("hidden_fc_sizes", .arr (e.hiddenFcSizes.map ConfigValue.int)),
   ("n_epochs", .int e.nEpochs),
   ("batch_size", .int e.batchSize),
   ("random_state", .int e.randomState),
   ("val_split", .rat e.valSplit),
   ("save_checkpoints", .bool e.saveCheckpoints)]

/-- What `train_global_model` persists on the (freshly created)
`ForecastModelRun` row: the stored hyperparameter record, the registry
identity, and whether the fit actually used validation. -/
structure TrainRecord where
  hyperparamsJson : EffHyperparams
  modelName : String
  workDir : String
  artifactPathPt : String
  usedValidation : Bool
  deriving Repr, DecidableEq

/-- Embeds the hyperparameter/registry dataflow of `train_global_model`
(lines 373-401 and 490-579) on the `update_run = None` path, after the
sizing fixpoint has produced `sizing` for the surviving assets:

* `effective_hyperparams` is built from the post-resize sizing
  (lines 373-385);
* the canonical registry key is computed from it (lines 387-394) before
  the fit;
* `use_val` holds when the resolved split is positive and every pre-fit
  validation check passed; `actual_use_val` additionally requires that
  the fit did not reject the validation set (lines 490-541);
* after the fit, a dropped validation zeroes `val_split` in the stored
  record (lines 543-544) — the model name is not recomputed;
* the record is persisted with the effective hyperparameters and that
  registry identity (lines 546-579). -/
def trainGlobalRecord (digest : String → String) (modelFamily cellType : String)
    (horizonDays : Int) (transform : String) (sizing : Sizing)
    (nRnnLayers hiddenDim : Int) (hiddenFcSizes : List Int)
    (nEpochs batchSize randomState : Int)
    (useValPre fitRejectsVal : Bool) : TrainRecord :=
  let eff : EffHyperparams :=
    ⟨sizing.inputChunkLength, sizing.outputChunkLength, sizing.trainingLength,
      nRnnLayers, hiddenDim, hiddenFcSizes, nEpochs, batchSize, randomState,
      sizing.valSplit, true⟩
  let key := canonicalModelKey digest "global_shared" modelFamily cellType
    horizonDays transform (effHyperparamsToConfig eff)
  let useVal := useValPre && decide (0 < sizing.valSplit)
  let actualUseVal := useVal && !fitRejectsVal
  let effFinal :=
    if !actualUseVal && eff.valSplit ≠ 0 then
      { eff with valSplit := 0 }
    else eff
  ⟨effFinal, key.modelName, key.workDir, key.artifactPathPt, actualUseVal⟩

/-- The shortest surviving return series of a non-empty asset list, and 0
for the empty list (where the training call has already failed). -/
def goodsMinLen (l : List AssetPrep) : Int :=
  match l with
  | [] => 0
  | p :: ps => minSeriesLen p ps

/-! ## Theorems -/

/-! ### Job runner helper lemmas -/

/-- Two entries of a job table with pairwise distinct keys and the same
key are the same entry. -/
theorem job_eq_of_key_eq {tbl : List Job} (hnd : (tbl.map Job.jobKey).Nodup)
    {a b : Job} (ha : a ∈ tbl) (hb : b ∈ tbl) (hk : a.jobKey = b.jobKey) : a = b :=
  List.inj_on_of_nodup_map hnd ha hb hk

/-- When a running job is in the table, `_find_running_job` yields a
running table entry. -/
theorem findRunningJob_spec {tbl : List Job} {A : Job} (hmem : A ∈ tbl)
    (hrun : A.state = "running") :
    ∃ rj, findRunningJob tbl = some rj ∧ rj ∈ tbl ∧ rj.state = "running" := by
  unfold findRunningJob
  cases hfind : tbl.find? (fun j => j.state == "running") with
  | none =>
    have := List.find?_eq_none.mp hfind A hmem
    simp [hrun] at this
  | some rj =>
    refine ⟨rj, rfl, List.mem_of_find?_eq_some hfind, ?_⟩
    have := List.find?_some hfind
    simpa using this

/-- A table member is returned by key lookup when keys are pairwise
distinct. -/
theorem lookupJob_eq_some {tbl : List Job} {A : Job} (hmem : A ∈ tbl)
    (hnd : (tbl.map Job.jobKey).Nodup) : lookupJob tbl A.jobKey = some A := by
  unfold lookupJob
  cases hfind : tbl.find? (fun j => j.jobKey == A.jobKey) with
  | none =>
    have := List.find?_eq_none.mp hfind A hmem
    simp at this
  | some ex =>
    have hexmem := List.mem_of_find?_eq_some hfind
    have hexkey : ex.jobKey = A.jobKey := by simpa using List.find?_some hfind
    rw [job_eq_of_key_eq hnd hexmem hmem hexkey]

/-- C1.  Single-flight admission for the job runner: when job `A` is the
running job of the table (every running entry carries its key), a
`start_job` call with any other key returns a `busy` status, leaves the
whole job table unchanged and spawns no thread; a `start_job` call with
the key of `A` returns `A` itself, leaves the table unchanged and spawns
no thread. -/
theorem startJob_single_flight (tbl : List Job) (A : Job) (jt lbl : String)
    (hmem : A ∈ tbl) (hrun : A.state = "running")
    (huniq : ∀ j ∈ tbl, j.state = "running" → j.jobKey = A.jobKey)
    (hnd : (tbl.map Job.jobKey).Nodup) :
    (∀ k, k ≠ A.jobKey →
      (startJob tbl k jt lbl).status.state = "busy" ∧
      (startJob tbl k jt lbl).table = tbl ∧
      (startJob tbl k jt lbl).started = false) ∧
    startJob tbl A.jobKey jt lbl = ⟨A, tbl, false⟩ := by
  obtain ⟨rj, hfind, hrjmem, hrjrun⟩ := findRunningJob_spec hmem hrun
  have hrjkey : rj.jobKey = A.jobKey := huniq rj hrjmem hrjrun
  constructor
  · intro k hk
    have hne : rj.jobKey ≠ k := by rw [hrjkey]; exact fun h => hk h.symm
    unfold startJob
    rw [hfind]
    simp [hne]
  · unfold startJob
    rw [hfind]
    simp only [hrjkey, ne_eq, not_true_eq_false, if_false, ite_not]
    unfold startJobProceed
    rw [lookupJob_eq_some hmem hnd]
    simp [hrun]

/-- C1 witness: a concrete one-job table, a rejected start for a second
key and an idempotent start for the running key. -/
theorem startJob_single_flight_witness :
    (startJob [⟨"lstm", "forecast", "LSTM", "running", "m"⟩] "gru" "forecast" "GRU").status.state
        = "busy" ∧
    (startJob [⟨"lstm", "forecast", "LSTM", "running", "m"⟩] "gru" "forecast" "GRU").table
        = [⟨"lstm", "forecast", "LSTM", "running", "m"⟩] ∧
    (startJob [⟨"lstm", "forecast", "LSTM", "running", "m"⟩] "gru" "forecast" "GRU").started
        = false ∧
    startJob [⟨"lstm", "forecast", "LSTM", "running", "m"⟩] "lstm" "forecast" "GRU"
        = ⟨⟨"lstm", "forecast", "LSTM", "running", "m"⟩,
            [⟨"lstm", "forecast", "LSTM", "running", "m"⟩], false⟩ := by
  have h := startJob_single_flight [⟨"lstm", "forecast", "LSTM", "running", "m"⟩]
    ⟨"lstm", "forecast", "LSTM", "running", "m"⟩ "forecast" "GRU"
    (by decide) (by decide) (by decide) (by decide)
  exact ⟨(h.1 "gru" (by decide)).1, (h.1 "gru" (by decide)).2.1,
    (h.1 "gru" (by decide)).2.2, h.2⟩

/-! ### Canonical key helper lemmas -/

/-- Entry normalization is a map over the value component. -/
theorem normalizeConfigEntries_eq_map (es : List (String × ConfigValue)) :
    normalizeConfigEntries es = es.map (fun p => (p.1, normalizeConfig p.2)) := by
  induction es with
  | nil => rfl
  | cons p es ih => cases p; simp [normalizeConfigEntries, ih]

/-- Sorting entries permutes them. -/
theorem sortEntries_perm (es : List (String × ConfigValue)) :
    (sortEntries es).Perm es :=
  List.perm_insertionSort entryLe es

/-- Sorted entries are sorted by key. -/
theorem sortEntries_sorted (es : List (String × ConfigValue)) :
    List.Sorted entryLe (sortEntries es) :=
  List.sorted_insertionSort entryLe es

/-- A key-sorted entry list with pairwise distinct keys is strictly
key-sorted. -/
theorem sorted_strict_of_nodup_keys {l : List (String × ConfigValue)}
    (hs : List.Sorted entryLe l) (hnd : (l.map Prod.fst).Nodup) :
    List.Pairwise entryLt l := by
  have hne : List.Pairwise (fun a b : String × ConfigValue => a.1 ≠ b.1) l :=
    List.pairwise_map.mp hnd
  refine (hs.and hne).imp ?_
  rintro a b ⟨hle, hneq⟩
  exact lt_of_le_of_ne hle (fun h => hneq (String.ext h))

/-- Key-based sorting is invariant under permutations of an entry list
with pairwise distinct keys. -/
theorem sortEntries_eq_of_perm {es₁ es₂ : List (String × ConfigValue)}
    (hperm : es₁.Perm es₂) (hnd : (es₁.map Prod.fst).Nodup) :
    sortEntries es₁ = sortEntries es₂ := by
  have hperm' : (sortEntries es₁).Perm (sortEntries es₂) :=
    (sortEntries_perm es₁).trans (hperm.trans (sortEntries_perm es₂).symm)
  have hnd₁ : ((sortEntries es₁).map Prod.fst).Nodup :=
    (((sortEntries_perm es₁).map Prod.fst).nodup_iff).mpr hnd
  have hnd₂ : ((sortEntries es₂).map Prod.fst).Nodup :=
    ((hperm'.map Prod.fst).nodup_iff).mp hnd₁
  exact List.eq_of_perm_of_sorted hperm'
    (sorted_strict_of_nodup_keys (sortEntries_sorted es₁) hnd₁)
    (sorted_strict_of_nodup_keys (sortEntries_sorted es₂) hnd₂)

/-- Normalization of a mapping depends only on its set of key/value
pairs, not their order, when keys are pairwise distinct. -/
theorem normalizeConfig_obj_perm {es₁ es₂ : List (String × ConfigValue)}
    (hperm : es₁.Perm es₂) (hnd : (es₁.map Prod.fst).Nodup) :
    normalizeConfig (.obj es₁) = normalizeConfig (.obj es₂) := by
  simp only [normalizeConfig]
  congr 1
  apply sortEntries_eq_of_perm
  · rw [normalizeConfigEntries_eq_map, normalizeConfigEntries_eq_map]
    exact hperm.map _
  · rw [normalizeConfigEntries_eq_map]
    simpa [List.map_map, Function.comp] using hnd

/-- C2.  Canonical key determinism: two hyperparameter mappings equal as
sets of key/value pairs (a permutation of entries, keys pairwise
distinct) and identical scope, model family, cell type, horizon and
transform produce the same `(model_name, work_dir, artifact_path)`
triple from `canonical_model_key`, for every digest function. -/
theorem canonicalModelKey_insertion_order_invariant
    (digest : String → String) (scope modelFamily cellType : String)
    (horizonDays : Int) (transform : String)
    (h₁ h₂ : List (String × ConfigValue)) (hperm : h₁.Perm h₂)
    (hnd : (h₁.map Prod.fst).Nodup) :
    canonicalModelKey digest scope modelFamily cellType horizonDays transform h₁ =
      canonicalModelKey digest scope modelFamily cellType horizonDays transform h₂ := by
  have hinner := normalizeConfig_obj_perm hperm hnd
  simp only [canonicalModelKey, hinner]

/-- C2 witness: a two-entry hyperparameter mapping in both insertion
orders. -/
theorem canonicalModelKey_insertion_order_invariant_witness :
    canonicalModelKey (fun s => s) "global_shared" "RNNModel" "LSTM" 30 "log_return"
        [("batch_size", .int 64), ("hidden_dim", .int 32)] =
      canonicalModelKey (fun s => s) "global_shared" "RNNModel" "LSTM" 30 "log_return"
        [("hidden_dim", .int 32), ("batch_size", .int 64)] :=
  canonicalModelKey_insertion_order_invariant (fun s => s) "global_shared" "RNNModel"
    "LSTM" 30 "log_return" _ _
    (List.Perm.swap ("hidden_dim", ConfigValue.int 32) ("batch_size", ConfigValue.int 64) [])
    (by decide)

/-! ### Chunk resolver -/

/-- Behaviour of `_resolve_chunk_lengths` on series of at least 6 points:
the output chunk stays at least 1, the input chunk at least 5, and the
pair fits into the series. -/
theorem resolveChunkLengths_spec (L i o : Int) (hL : 6 ≤ L) (hi : 1 ≤ i) (ho : 1 ≤ o) :
    1 ≤ (resolveChunkLengths L i o).2 ∧
    5 ≤ (resolveChunkLengths L i o).1 ∧
    (resolveChunkLengths L i o).1 + (resolveChunkLengths L i o).2 ≤ L := by
  simp only [resolveChunkLengths]
  split_ifs <;> refine ⟨?_, ?_, ?_⟩ <;> omega

/-- On a series of at least 6 points, a desired output chunk of 1 is
kept as is. -/
theorem resolveChunkLengths_output_one (L i : Int) (hL : 6 ≤ L) :
    (resolveChunkLengths L i 1).2 = 1 := by
  simp only [resolveChunkLengths]
  split_ifs <;> omega

/-- C3 counterexample: at `series_length = 6` with desired input chunk 5,
output chunk 1 and training length 6 — all admissible under the claim
(`series_length ≥ 6`, desired values ≥ 1) — the single-step family
resolves to `min_required = 7 > 6` in both the per-asset resolver
(`rnn.py`) and the global resolver (`global_training.py`). -/
theorem chunk_resolver_feasibility_counterexample :
    (resolveSizingRnnPy 6 5 6 1 1 "rnn").2.2.2 = 7 ∧
    ¬((resolveSizingRnnPy 6 5 6 1 1 "rnn").2.2.2 ≤ 6) ∧
    (resolveSizingGlobal1 "RNNModel" 6 5 1 6).2.2.2 = 7 ∧
    ¬((resolveSizingGlobal1 "RNNModel" 6 5 1 6).2.2.2 ≤ 6) := by
  norm_num [resolveSizingRnnPy, resolveSizingGlobal1, resolveChunkLengths,
    resolveTrainingLength, minRequiredLength, minRequiredLengthFamily]

/-- C3 amended.  For every `series_length ≥ 6` and desired input chunk,
output chunk and training length ≥ 1 (and any horizon), the resolved
sizing satisfies `min_required ≤ series_length` for the block family;
for the single-step family the guarantee is only
`min_required ≤ series_length + 1` (the claimed bound `series_length`
can be exceeded by one, e.g. whenever the resolved training length
reaches the full series length). -/
theorem chunk_resolver_feasibility_amended
    (L i o t hz : Int) (hL : 6 ≤ L) (hi : 1 ≤ i) (ho : 1 ≤ o) (ht : 1 ≤ t) :
    (resolveSizingRnnPy L i t o hz "block").2.2.2 ≤ L ∧
    (resolveSizingRnnPy L i t o hz "rnn").2.2.2 ≤ L + 1 ∧
    (resolveSizingGlobal1 "BlockRNNModel" L i o t).2.2.2 ≤ L ∧
    (resolveSizingGlobal1 "RNNModel" L i o t).2.2.2 ≤ L + 1 := by
  have hb := resolveChunkLengths_spec L i (max 1 o) hL hi (le_max_left 1 o)
  have hb2 := resolveChunkLengths_spec L i o hL hi ho
  have hr := resolveChunkLengths_spec L i 1 hL hi le_rfl
  have hoc := resolveChunkLengths_output_one L i hL
  have hbeq1 : (("block" : String) == "rnn") = false := by rfl
  have hbeq2 : (("rnn" : String) == "rnn") = true := by rfl
  have hbeq3 : (("BlockRNNModel" : String) == "RNNModel") = false := by rfl
  have hbeq4 : (("RNNModel" : String) == "RNNModel") = true := by rfl
  refine ⟨?_, ?_, ?_, ?_⟩
  · simp only [resolveSizingRnnPy, minRequiredLength, hbeq1, if_false,
      Bool.false_eq_true, if_true]
    omega
  · simp only [resolveSizingRnnPy, minRequiredLength, resolveTrainingLength, hbeq2,
      if_true]
    split_ifs <;> omega
  · simp only [resolveSizingGlobal1, minRequiredLengthFamily, hbeq3, if_false,
      Bool.false_eq_true, if_true]
    omega
  · simp only [resolveSizingGlobal1, minRequiredLengthFamily, resolveTrainingLength,
      hbeq4, if_true]
    omega

/-- C3 amended witness at `series_length = 60`, desired input 6, output
3, training 10, horizon 3. -/
theorem chunk_resolver_feasibility_amended_witness :
    (resolveSizingRnnPy 60 6 10 3 3 "block").2.2.2 ≤ 60 ∧
    (resolveSizingRnnPy 60 6 10 3 3 "rnn").2.2.2 ≤ 61 ∧
    (resolveSizingGlobal1 "BlockRNNModel" 60 6 3 10).2.2.2 ≤ 60 ∧
    (resolveSizingGlobal1 "RNNModel" 60 6 3 10).2.2.2 ≤ 61 :=
  chunk_resolver_feasibility_amended 60 6 3 10 3
    (by norm_num) (by norm_num) (by norm_num) (by norm_num)

/-! ### Validation split -/

/-- A fraction inside the feasible band splits both sides above
`min_required`. -/
theorem valSplit_bounds_imply {L mr : Int} {f : ℚ} (hL : (0:ℚ) < (L:ℚ))
    (h₁ : (mr : ℚ) / (L : ℚ) ≤ f) (h₂ : f ≤ ((L : ℚ) - (mr : ℚ)) / (L : ℚ)) :
    (L : ℚ) * (1 - f) ≥ (mr : ℚ) ∧ (L : ℚ) * f ≥ (mr : ℚ) := by
  have k₁ := (div_le_iff₀ hL).mp h₁
  have k₂ := (le_div_iff₀ hL).mp h₂
  constructor <;> nlinarith

/-- C4.  Validation split safety: for every requested fraction, series
length and positive `min_required`, the fraction `f` returned by
`_resolve_val_split` is either 0 or satisfies
`series_len * (1 - f) ≥ min_required` and
`series_len * f ≥ min_required`; in particular it is 0 whenever the
desired fraction or the series length is non-positive, and whenever no
feasible band exists (`min_ratio > max_ratio`). -/
theorem resolveValSplit_safety (d : ℚ) (L mr : Int) (hmr : 0 < mr) :
    (resolveValSplit d L mr = 0 ∨
      ((L : ℚ) * (1 - resolveValSplit d L mr) ≥ (mr : ℚ) ∧
        (L : ℚ) * resolveValSplit d L mr ≥ (mr : ℚ))) ∧
    (d ≤ 0 → resolveValSplit d L mr = 0) ∧
    (L ≤ 0 → resolveValSplit d L mr = 0) ∧
    (0 < L → (mr : ℚ) / (L : ℚ) > ((L : ℚ) - (mr : ℚ)) / (L : ℚ) →
      resolveValSplit d L mr = 0) := by
  simp only [resolveValSplit]
  split_ifs with h1 h2 h3 h4 h5 h6 h7 h8 h9 h10
  all_goals try exact ⟨Or.inl rfl, fun _ => rfl, fun _ => rfl, fun _ _ => rfl⟩
  all_goals try exact absurd (by assumption) (not_le.mpr hmr)
  all_goals
    rcases not_or.mp h1 with ⟨hd0, hL0⟩
  all_goals
    rcases not_or.mp h3 with ⟨hmM, hM0⟩
  all_goals
    have hLQ : (0:ℚ) < (L:ℚ) := by exact_mod_cast lt_of_not_le hL0
  all_goals
    refine ⟨Or.inr (valSplit_bounds_imply hLQ (by push_neg at *; linarith)
        (by push_neg at *; linarith)),
      fun hd => absurd hd hd0, fun hl => absurd hl hL0,
      fun _ hgt => absurd hgt hmM⟩

/-- C4 witness at desired fraction 1/5, series length 100 and
`min_required` 10. -/
theorem resolveValSplit_safety_witness :
    resolveValSplit (mkRat 1 5) 100 10 = 0 ∨
      ((100 : ℚ) * (1 - resolveValSplit (mkRat 1 5) 100 10) ≥ (10 : ℚ) ∧
        (100 : ℚ) * resolveValSplit (mkRat 1 5) 100 10 ≥ (10 : ℚ)) :=
  (resolveValSplit_safety (mkRat 1 5) 100 10 (by decide)).1

/-! ### Forecast replacement -/

/-- Every record built by the insert loop matches the delete filter of
its own table and asset. -/
theorem rowMatches_mkRecord (table : ForecastTable) (cryptoId : Int) (r : FRow)
    (cutoffDate horizonDays : Int) (modelRunId : Option Int) :
    rowMatches table cryptoId
      (table, ForecastRow.mk cryptoId r.date r.yhat r.yhatLower r.yhatUpper
        cutoffDate horizonDays modelRunId) = true := by
  simp [rowMatches]

/-- C5.  Forecast replace semantics: after a successful store of a
non-empty forecast with a positive horizon, the rows of the store that
belong to the written (table, asset) pair are exactly the new records,
every row of any other table or asset is untouched (same rows in the
same order), and the reported count is the number of new rows. -/
theorem storeForecastRows_replace (db : ForecastDb) (table : ForecastTable)
    (cryptoId : Int) (rows : List FRow) (horizonDays cutoffDate : Int)
    (modelRunId : Option Int) (hh : 0 < horizonDays) (hr : rows ≠ []) :
    (storeForecastRows db table cryptoId rows horizonDays cutoffDate modelRunId).1.filter
        (rowMatches table cryptoId) =
      rows.map (fun r =>
        (table, ForecastRow.mk cryptoId r.date r.yhat r.yhatLower r.yhatUpper
          cutoffDate horizonDays modelRunId)) ∧
    (storeForecastRows db table cryptoId rows horizonDays cutoffDate modelRunId).1.filter
        (fun e => !rowMatches table cryptoId e) =
      db.filter (fun e => !rowMatches table cryptoId e) ∧
    (storeForecastRows db table cryptoId rows horizonDays cutoffDate modelRunId).2 =
      rows.length := by
  have hguard : ¬ (horizonDays ≤ 0 ∨ rows = []) := by
    push_neg
    exact ⟨hh, hr⟩
  simp only [storeForecastRows, if_neg hguard]
  refine ⟨?_, ?_, by simp⟩
  · rw [List.filter_append]
    have hdel : (db.filter (fun e => !rowMatches table cryptoId e)).filter
        (rowMatches table cryptoId) = [] := by
      simp [List.filter_filter]
    have hrec : (rows.map (fun r =>
        (table, ForecastRow.mk cryptoId r.date r.yhat r.yhatLower r.yhatUpper
          cutoffDate horizonDays modelRunId))).filter (rowMatches table cryptoId) =
        rows.map (fun r =>
          (table, ForecastRow.mk cryptoId r.date r.yhat r.yhatLower r.yhatUpper
            cutoffDate horizonDays modelRunId)) := by
      refine List.filter_eq_self.mpr ?_
      intro a ha
      obtain ⟨r, -, rfl⟩ := List.mem_map.mp ha
      exact rowMatches_mkRecord table cryptoId r cutoffDate horizonDays modelRunId
    rw [hdel, hrec, List.nil_append]
  · rw [List.filter_append]
    have hrec : (rows.map (fun r =>
        (table, ForecastRow.mk cryptoId r.date r.yhat r.yhatLower r.yhatUpper
          cutoffDate horizonDays modelRunId))).filter
        (fun e => !rowMatches table cryptoId e) = [] := by
      refine List.filter_eq_nil_iff.mpr ?_
      intro a ha
      obtain ⟨r, -, rfl⟩ := List.mem_map.mp ha
      simp [rowMatches_mkRecord]
    rw [hrec, List.append_nil, List.filter_filter]
    simp

/-- C5 witness: a store holding a stale row for the written pair, a row
of the other table and a row of another asset. -/
theorem storeForecastRows_replace_witness :
    (storeForecastRows
        [(ForecastTable.lstm, ⟨1, 2, 3, 2, 4, 2, 30, none⟩),
         (ForecastTable.gru, ⟨1, 2, 3, 2, 4, 2, 30, none⟩),
         (ForecastTable.lstm, ⟨2, 2, 3, 2, 4, 2, 30, none⟩)]
        ForecastTable.lstm 1 ([⟨5, 10, 9, 11⟩] : List FRow) 3 4 (some 7)).1.filter
        (rowMatches ForecastTable.lstm 1) =
      ([⟨5, 10, 9, 11⟩] : List FRow).map (fun r =>
        (ForecastTable.lstm, ForecastRow.mk 1 r.date r.yhat r.yhatLower r.yhatUpper
          4 3 (some 7))) ∧
    (storeForecastRows
        [(ForecastTable.lstm, ⟨1, 2, 3, 2, 4, 2, 30, none⟩),
         (ForecastTable.gru, ⟨1, 2, 3, 2, 4, 2, 30, none⟩),
         (ForecastTable.lstm, ⟨2, 2, 3, 2, 4, 2, 30, none⟩)]
        ForecastTable.lstm 1 ([⟨5, 10, 9, 11⟩] : List FRow) 3 4 (some 7)).1.filter
        (fun e => !rowMatches ForecastTable.lstm 1 e) =
      [(ForecastTable.lstm, ⟨1, 2, 3, 2, 4, 2, 30, none⟩),
       (ForecastTable.gru, ⟨1, 2, 3, 2, 4, 2, 30, none⟩),
       (ForecastTable.lstm, ⟨2, 2, 3, 2, 4, 2, 30, none⟩)].filter
        (fun e => !rowMatches ForecastTable.lstm 1 e) ∧
    (storeForecastRows
        [(ForecastTable.lstm, ⟨1, 2, 3, 2, 4, 2, 30, none⟩),
         (ForecastTable.gru, ⟨1, 2, 3, 2, 4, 2, 30, none⟩),
         (ForecastTable.lstm, ⟨2, 2, 3, 2, 4, 2, 30, none⟩)]
        ForecastTable.lstm 1 ([⟨5, 10, 9, 11⟩] : List FRow) 3 4 (some 7)).2 =
      [(⟨5, 10, 9, 11⟩ : FRow)].length :=
  storeForecastRows_replace
    [(ForecastTable.lstm, ⟨1, 2, 3, 2, 4, 2, 30, none⟩),
     (ForecastTable.gru, ⟨1, 2, 3, 2, 4, 2, 30, none⟩),
     (ForecastTable.lstm, ⟨2, 2, 3, 2, 4, 2, 30, none⟩)]
    ForecastTable.lstm 1 ([⟨5, 10, 9, 11⟩] : List FRow) 3 4 (some 7)
    (by decide) (by decide)

/-! ### Price reconstruction -/

/-- C6.  Round trip on price reconstruction: when the external
exponential maps 0 to 1 (as `math.exp` does) and the model predicts a
zero log return at every future step, the chained reconstruction
starting from the last known price yields `yhat` equal to that price on
every forecast day. -/
theorem futureForecastRows_zero_return_round_trip (expf : ℚ → ℚ) (ciWidth : ℚ)
    (prevPrice : ℚ) (points : List (Int × ℚ)) (hexp : expf 0 = 1)
    (hzero : ∀ p ∈ points, p.2 = 0) :
    (futureForecastRows expf ciWidth (some prevPrice) points).map FRow.yhat =
      List.replicate points.length prevPrice := by
  induction points generalizing prevPrice with
  | nil => rfl
  | cons p ps ih =>
    obtain ⟨pointDate, prediction⟩ := p
    have hpred : prediction = 0 := hzero (pointDate, prediction) (by simp)
    subst hpred
    have hprev : prevPrice * expf 0 = prevPrice := by rw [hexp, mul_one]
    simp only [futureForecastRows, List.map_cons, List.length_cons,
      List.replicate_succ, hprev]
    exact congrArg _ (ih prevPrice (fun q hq => hzero q (List.mem_cons_of_mem _ hq)))

/-- C6 witness: two future points with zero predicted return starting
from price 5. -/
theorem futureForecastRows_zero_return_round_trip_witness :
    (futureForecastRows (fun _ => (1 : ℚ)) 0 (some 5)
        [(10, 0), (11, 0)]).map FRow.yhat = List.replicate 2 5 :=
  futureForecastRows_zero_return_round_trip (fun _ => (1 : ℚ)) 0 5
    [(10, 0), (11, 0)] rfl (by decide)

/-! ### Empty forecasts and the unseen-asset guard -/

/-- C9.  Stale forecasts preserved on empty output: whenever the
forecast computation yields no rows — darts unavailable, fewer than 5
price points, a price frame shorter than 6 days, a return series shorter
than 5 points, or an externally empty model output — the predict call
returns an empty list, writes nothing and leaves every stored row
unchanged; and both storage routines return count 0 without deleting on
a non-positive horizon or empty input (for the per-asset store, also on
fewer than 5 price rows). -/
theorem predict_empty_output_preserves_rows (db : ForecastDb) (run : ModelRunRec)
    (cryptoId : Int) (horizonDaysOpt : Option Int) (dartsAvailable : Bool)
    (priceRows : List (Int × ℚ)) (modelTail : List FRow)
    (table : ForecastTable) (rows : List FRow) (rowsLen : Nat)
    (forecast : List FRow) (horizonDays cutoffDate : Int) (modelRunId : Option Int) :
    (dartsAvailable = false ∨ priceRows.length < 5 ∨
        computeForecastGuarded (priceFrameLen priceRows) (returnSeriesLen priceRows)
          modelTail = [] →
      (predictWithGlobalModel db (some run) cryptoId horizonDaysOpt true dartsAvailable
          priceRows modelTail).result = .ok [] ∧
      (predictWithGlobalModel db (some run) cryptoId horizonDaysOpt true dartsAvailable
          priceRows modelTail).db = db ∧
      (predictWithGlobalModel db (some run) cryptoId horizonDaysOpt true dartsAvailable
          priceRows modelTail).storedCount = 0) ∧
    (priceFrameLen priceRows < 6 →
      computeForecastGuarded (priceFrameLen priceRows) (returnSeriesLen priceRows)
        modelTail = []) ∧
    (returnSeriesLen priceRows < 5 →
      computeForecastGuarded (priceFrameLen priceRows) (returnSeriesLen priceRows)
        modelTail = []) ∧
    (horizonDays ≤ 0 ∨ rows = [] →
      storeForecastRows db table cryptoId rows horizonDays cutoffDate modelRunId =
        (db, 0)) ∧
    (horizonDays ≤ 0 ∨ rowsLen < 5 ∨ forecast = [] →
      storeForecastRnn db table cryptoId rowsLen forecast horizonDays cutoffDate
        modelRunId = (db, 0)) := by
  refine ⟨?_, ?_, ?_, ?_, ?_⟩
  · intro hcause
    unfold predictWithGlobalModel
    rcases hcause with hda | hlen | hemp
    · subst hda
      simp
    · by_cases hda : dartsAvailable
      · simp [hda, hlen]
      · simp [hda]
    · by_cases hda : dartsAvailable
      · by_cases hlen : priceRows.length < 5
        · simp [hda, hlen]
        · simp [hda, hlen, hemp]
      · simp [hda]
  · intro hf
    unfold computeForecastGuarded
    rw [if_pos hf]
  · intro hs
    unfold computeForecastGuarded
    by_cases hf : priceFrameLen priceRows < 6
    · rw [if_pos hf]
    · rw [if_neg hf, if_pos hs]
  · intro hguard
    unfold storeForecastRows
    rw [if_pos hguard]
  · intro hguard
    unfold storeForecastRnn
    rcases hguard with h | h | h
    · rw [if_pos (Or.inl h)]
    · rw [if_pos (Or.inr h)]
    · by_cases h0 : horizonDays ≤ 0 ∨ rowsLen < 5
      · rw [if_pos h0]
      · rw [if_neg h0, if_pos h]

/-- C9 witness: three price points only — the predict call returns an
empty list and the single stored row survives unchanged. -/
theorem predict_empty_output_preserves_rows_witness :
    (predictWithGlobalModel [(ForecastTable.lstm, ⟨1, 2, 3, 2, 4, 2, 30, none⟩)]
        (some ⟨9, "RNNModel", "LSTM", 30, some [1]⟩) 1 none true true
        [(1, 3), (2, 4), (3, 5)] []).result = .ok [] ∧
    (predictWithGlobalModel [(ForecastTable.lstm, ⟨1, 2, 3, 2, 4, 2, 30, none⟩)]
        (some ⟨9, "RNNModel", "LSTM", 30, some [1]⟩) 1 none true true
        [(1, 3), (2, 4), (3, 5)] []).db =
      [(ForecastTable.lstm, ⟨1, 2, 3, 2, 4, 2, 30, none⟩)] ∧
    (predictWithGlobalModel [(ForecastTable.lstm, ⟨1, 2, 3, 2, 4, 2, 30, none⟩)]
        (some ⟨9, "RNNModel", "LSTM", 30, some [1]⟩) 1 none true true
        [(1, 3), (2, 4), (3, 5)] []).storedCount = 0 :=
  (predict_empty_output_preserves_rows
      [(ForecastTable.lstm, ⟨1, 2, 3, 2, 4, 2, 30, none⟩)]
      ⟨9, "RNNModel", "LSTM", 30, some [1]⟩ 1 none true
      [(1, 3), (2, 4), (3, 5)] [] ForecastTable.lstm [] 0 [] 0 0 none).1
    (Or.inr (Or.inl (by decide)))

/-- C10.  Unseen-asset guard: with `allow_unseen = False` and an asset
that is not in the training id list (also when that list is null), the
predict call raises before loading any model and before touching any
forecast row — the store is unchanged and nothing is written; with
`allow_unseen = True` the training id list is never consulted: the
outcome is identical for every value of that list. -/
theorem predict_unseen_guard (db : ForecastDb) (run : ModelRunRec) (cryptoId : Int)
    (horizonDaysOpt : Option Int) (dartsAvailable : Bool)
    (priceRows : List (Int × ℚ)) (modelTail : List FRow)
    (ids : Option (List Int)) :
    (¬ ((run.trainingCryptoIds.getD []).contains cryptoId = true) →
      predictWithGlobalModel db (some run) cryptoId horizonDaysOpt false dartsAvailable
          priceRows modelTail =
        ⟨.error "Crypto not part of the training set.", db, 0, false⟩) ∧
    (predictWithGlobalModel db (some { run with trainingCryptoIds := ids }) cryptoId
        horizonDaysOpt true dartsAvailable priceRows modelTail =
      predictWithGlobalModel db (some run) cryptoId horizonDaysOpt true dartsAvailable
        priceRows modelTail) := by
  constructor
  · intro hnotin
    have hnotmem : cryptoId ∉ run.trainingCryptoIds.getD [] := by
      simpa using hnotin
    unfold predictWithGlobalModel
    simp [hnotmem]
  · unfold predictWithGlobalModel
    simp

/-- C10 witness: a run whose training id list is null rejects asset 1
when `allow_unseen` is false, and training ids are irrelevant when
`allow_unseen` is true. -/
theorem predict_unseen_guard_witness :
    predictWithGlobalModel [] (some ⟨9, "RNNModel", "LSTM", 30, none⟩) 1 none false
        true [] [] =
      ⟨.error "Crypto not part of the training set.", [], 0, false⟩ ∧
    predictWithGlobalModel []
        (some { (⟨9, "RNNModel", "LSTM", 30, none⟩ : ModelRunRec) with
          trainingCryptoIds := some [2, 3] }) 1 none true true [] [] =
      predictWithGlobalModel [] (some ⟨9, "RNNModel", "LSTM", 30, none⟩) 1 none true
        true [] [] :=
  ⟨(predict_unseen_guard [] ⟨9, "RNNModel", "LSTM", 30, none⟩ 1 none true [] []
      (some [2, 3])).1 (by decide),
   (predict_unseen_guard [] ⟨9, "RNNModel", "LSTM", 30, none⟩ 1 none true [] []
      (some [2, 3])).2⟩

/-! ### Training asset selection -/

/-- Assets delivered by the sizing/filter fixpoint loop all come from
its input list. -/
theorem selectionLoop_ok_subset (splitLen : Int → ℚ → Int) (resolve : Int → Sizing) :
    ∀ (n : Nat) (payloads kept : List AssetPrep) (s : Sizing),
      payloads.length ≤ n →
      selectionLoop splitLen resolve payloads = .ok (kept, s) →
      ∀ a ∈ kept, a ∈ payloads := by
  intro n
  induction n with
  | zero =>
    intro payloads kept s hlen hok a ha
    have hnil : payloads = [] := List.eq_nil_of_length_eq_zero (Nat.le_zero.mp hlen)
    subst hnil
    rw [selectionLoop.eq_1] at hok
    exact Except.noConfusion hok
  | succ n ih =>
    intro payloads kept s hlen hok a ha
    match payloads, hok with
    | [], hok =>
      rw [selectionLoop.eq_1] at hok
      exact Except.noConfusion hok
    | p :: ps, hok =>
      rw [selectionLoop.eq_2] at hok
      by_cases hempty : (p :: ps).filter
          (fun q => 5 ≤ trainSliceLen splitLen q.returnLen
            (resolve (minSeriesLen p ps)).valSplit) = []
      · rw [if_pos hempty] at hok
        simp at hok
      · rw [if_neg hempty] at hok
        by_cases hfix : ((p :: ps).filter
            (fun q => 5 ≤ trainSliceLen splitLen q.returnLen
              (resolve (minSeriesLen p ps)).valSplit)).length = (p :: ps).length
        · rw [dif_pos hfix] at hok
          obtain ⟨hkept, -⟩ : _ ∧ _ := by simpa using hok
          rw [← hkept] at ha
          exact List.mem_of_mem_filter ha
        · rw [dif_neg hfix] at hok
          have hlt : ((p :: ps).filter
              (fun q => 5 ≤ trainSliceLen splitLen q.returnLen
                (resolve (minSeriesLen p ps)).valSplit)).length < (p :: ps).length :=
            lt_of_le_of_ne (List.length_filter_le _ _) hfix
          have hle : ((p :: ps).filter
              (fun q => 5 ≤ trainSliceLen splitLen q.returnLen
                (resolve (minSeriesLen p ps)).valSplit)).length ≤ n := by
            have := hlen
            simp only [List.length_cons] at this
            omega
          exact List.mem_of_mem_filter (ih _ kept s hle hok a ha)

/-- When every input asset keeps a training slice of at least 5 points
under the sizing of the shortest series, the fixpoint loop stops at once
and keeps everything. -/
theorem selectionLoop_all_kept (splitLen : Int → ℚ → Int) (resolve : Int → Sizing)
    (p : AssetPrep) (ps : List AssetPrep)
    (hall : ∀ q ∈ p :: ps, 5 ≤ trainSliceLen splitLen q.returnLen
      (resolve (minSeriesLen p ps)).valSplit) :
    selectionLoop splitLen resolve (p :: ps) = .ok (p :: ps, resolve (minSeriesLen p ps)) := by
  have hfilter : (p :: ps).filter
      (fun q => 5 ≤ trainSliceLen splitLen q.returnLen
        (resolve (minSeriesLen p ps)).valSplit) = p :: ps :=
    List.filter_eq_self.mpr (fun a ha => decide_eq_true (hall a ha))
  rw [selectionLoop.eq_2, hfilter]
  simp

/-- Filtering the survivors is idempotent. -/
theorem filter_assetSurvives_idem (l : List AssetPrep) :
    (l.filter assetSurvives).filter assetSurvives = l.filter assetSurvives := by
  simp [List.filter_filter]

/-- C8.  Missing-history dropout: every asset whose prepared price frame
has fewer than 6 days or whose return series has fewer than 6 points is
silently excluded — the selection behaves exactly as if those assets had
not been passed at all, and every recorded training asset satisfies both
minima; when no asset survives the dropout, training fails with the
insufficient-training-data error; and when every surviving asset keeps a
training slice of at least 5 points under the resolved split (in
particular whenever the resolved split is 0), the recorded training set
is exactly the set of surviving assets, sized against their shortest
return series. -/
theorem train_global_missing_history_dropout (splitLen : Int → ℚ → Int)
    (modelFamily : String) (bI bO bT : Int) (rvs : ℚ) (assets : List AssetPrep) :
    (∀ kept s, trainGlobalSelect splitLen modelFamily bI bO bT rvs assets =
        .ok (kept, s) → ∀ a ∈ kept, assetSurvives a = true) ∧
    (assets.filter assetSurvives ≠ [] →
      trainGlobalSelect splitLen modelFamily bI bO bT rvs assets =
        trainGlobalSelect splitLen modelFamily bI bO bT rvs
          (assets.filter assetSurvives)) ∧
    (assets ≠ [] → assets.filter assetSurvives = [] →
      trainGlobalSelect splitLen modelFamily bI bO bT rvs assets =
        .error "Not enough data to train a global model.") ∧
    ((∀ len v, 0 < v → 5 ≤ splitLen len v) → assets.filter assetSurvives ≠ [] →
      trainGlobalSelect splitLen modelFamily bI bO bT rvs assets =
        .ok (assets.filter assetSurvives,
          resolveSizingGlobal modelFamily (goodsMinLen (assets.filter assetSurvives))
            bI bO bT rvs)) := by
  refine ⟨?_, ?_, ?_, ?_⟩
  · intro kept s hok a ha
    unfold trainGlobalSelect at hok
    by_cases hnil : assets = []
    · rw [if_pos hnil] at hok; simp at hok
    · rw [if_neg hnil] at hok
      by_cases hgone : assets.filter assetSurvives = []
      · rw [if_pos hgone] at hok; simp at hok
      · rw [if_neg hgone] at hok
        have hmem := selectionLoop_ok_subset splitLen _
          (assets.filter assetSurvives).length (assets.filter assetSurvives) kept s
          le_rfl hok a ha
        exact List.of_mem_filter hmem
  · intro hgoods
    have hnil : assets ≠ [] := by
      intro h
      subst h
      simp at hgoods
    unfold trainGlobalSelect
    simp only [filter_assetSurvives_idem, if_neg hnil, if_neg hgoods]
  · intro hnil hgone
    unfold trainGlobalSelect
    rw [if_neg hnil, if_pos hgone]
  · intro hsplit hgoods
    have hnil : assets ≠ [] := by
      intro h
      subst h
      simp at hgoods
    unfold trainGlobalSelect
    rw [if_neg hnil, if_neg hgoods]
    obtain ⟨p, ps, hcons⟩ : ∃ p ps, assets.filter assetSurvives = p :: ps := by
      cases h : assets.filter assetSurvives with
      | nil => exact absurd h hgoods
      | cons p ps => exact ⟨p, ps, rfl⟩
    rw [hcons]
    have hall : ∀ q ∈ p :: ps, 5 ≤ trainSliceLen splitLen q.returnLen
        (resolveSizingGlobal modelFamily (minSeriesLen p ps) bI bO bT rvs).valSplit := by
      intro q hq
      have hsurv : assetSurvives q = true := by
        have hqmem : q ∈ assets.filter assetSurvives := hcons ▸ hq
        exact List.of_mem_filter hqmem
      have hlen : 6 ≤ q.returnLen := by
        simp only [assetSurvives, Bool.and_eq_true, decide_eq_true_eq] at hsurv
        exact hsurv.2
      unfold trainSliceLen
      split_ifs with hv
      · omega
      · exact hsplit q.returnLen _ (lt_of_not_le hv)
    have hloop := selectionLoop_all_kept splitLen
      (fun minLen => resolveSizingGlobal modelFamily minLen bI bO bT rvs) p ps hall
    simpa [goodsMinLen] using hloop

/-- C8 witness: asset 1 with 80 frame days and 79 return points next to
asset 2 with 2 frame days and 1 return point — training keeps exactly
asset 1; and with both assets below the minima training fails with the
insufficient-data error. -/
theorem train_global_missing_history_dropout_witness :
    trainGlobalSelect (fun _ _ => 5) "RNNModel" 180 30 210 0
        [⟨1, 80, 79⟩, ⟨2, 2, 1⟩] =
      .ok (([⟨1, 80, 79⟩, ⟨2, 2, 1⟩] : List AssetPrep).filter assetSurvives,
        resolveSizingGlobal "RNNModel"
          (goodsMinLen (([⟨1, 80, 79⟩, ⟨2, 2, 1⟩] : List AssetPrep).filter assetSurvives))
          180 30 210 0) ∧
    trainGlobalSelect (fun _ _ => 5) "RNNModel" 180 30 210 0 [⟨2, 2, 1⟩] =
      .error "Not enough data to train a global model." :=
  ⟨(train_global_missing_history_dropout (fun _ _ => 5) "RNNModel" 180 30 210 0
      [⟨1, 80, 79⟩, ⟨2, 2, 1⟩]).2.2.2 (fun _ _ _ => le_refl 5) (by decide),
   (train_global_missing_history_dropout (fun _ _ => 5) "RNNModel" 180 30 210 0
      [⟨2, 2, 1⟩]).2.2.1 (by decide) (by decide)⟩

/-! ### Effective hyperparameters and the registry hash -/

/-- C7 amended.  For every training run: the stored hyperparameter
record carries exactly the post-resize sizing used by the fit (input
chunk, output chunk, training length); whenever validation was dropped
for any reason the stored record carries `val_split = 0`; and the stored
registry identity (`model_name`, `work_dir`, `artifact_path`) equals the
canonical key of the stored hyperparameter record whenever validation
was not dropped after the key was computed — that is, when the resolved
split was 0, or when validation passed the pre-fit checks and the fit
accepted it.  (When a positive resolved split is dropped at or during
the fit, the stored name keeps the hash of the pre-drop record; see the
counterexample.) -/
theorem trainGlobalRecord_effective_consistency
    (digest : String → String) (modelFamily cellType : String) (horizonDays : Int)
    (transform : String) (sizing : Sizing) (nR hD : Int) (fcs : List Int)
    (nE bS rS : Int) (useValPre fitRejectsVal : Bool) (r : TrainRecord)
    (hr : r = trainGlobalRecord digest modelFamily cellType horizonDays transform
      sizing nR hD fcs nE bS rS useValPre fitRejectsVal) :
    r.hyperparamsJson.inputChunkLength = sizing.inputChunkLength ∧
    r.hyperparamsJson.outputChunkLength = sizing.outputChunkLength ∧
    r.hyperparamsJson.trainingLength = sizing.trainingLength ∧
    (r.usedValidation = false → r.hyperparamsJson.valSplit = 0) ∧
    (sizing.valSplit = 0 ∨
        (0 < sizing.valSplit ∧ useValPre = true ∧ fitRejectsVal = false) →
      canonicalModelKey digest "global_shared" modelFamily cellType horizonDays
          transform (effHyperparamsToConfig r.hyperparamsJson) =
        ⟨r.modelName, r.workDir, r.artifactPathPt⟩) := by
  subst hr
  simp only [trainGlobalRecord]
  refine ⟨?_, ?_, ?_, ?_, ?_⟩
  · split_ifs <;> rfl
  · split_ifs <;> rfl
  · split_ifs <;> rfl
  · intro hval
    split_ifs with hcond
    · rfl
    · simp only [hval, Bool.not_false, Bool.true_and, decide_eq_true_eq] at hcond
      exact not_not.mp hcond
  · rintro (hz | ⟨hpos, hpre, hrej⟩)
    · have hcond : ¬ ((!(useValPre && decide (0 < sizing.valSplit) && !fitRejectsVal)
          && decide (sizing.valSplit ≠ 0)) = true) := by
        simp [hz]
      rw [if_neg hcond]
    · have hcond : ¬ ((!(useValPre && decide (0 < sizing.valSplit) && !fitRejectsVal)
          && decide (sizing.valSplit ≠ 0)) = true) := by
        simp [hpre, hrej, decide_eq_true hpos]
      rw [if_neg hcond]

/-- C7 amended witness: a zero resolved split — validation never
attempted — stores `val_split = 0` with a matching registry key. -/
theorem trainGlobalRecord_effective_consistency_witness :
    (trainGlobalRecord (fun s => s) "RNNModel" "LSTM" 30 "log_return"
        ⟨5, 1, 6, 7, 0⟩ 2 64 [64, 32] 200 64 42 false false).hyperparamsJson.inputChunkLength
      = 5 ∧
    ((trainGlobalRecord (fun s => s) "RNNModel" "LSTM" 30 "log_return"
        ⟨5, 1, 6, 7, 0⟩ 2 64 [64, 32] 200 64 42 false false).usedValidation = false →
      (trainGlobalRecord (fun s => s) "RNNModel" "LSTM" 30 "log_return"
        ⟨5, 1, 6, 7, 0⟩ 2 64 [64, 32] 200 64 42 false false).hyperparamsJson.valSplit = 0) ∧
    canonicalModelKey (fun s => s) "global_shared" "RNNModel" "LSTM" 30 "log_return"
        (effHyperparamsToConfig
          (trainGlobalRecord (fun s => s) "RNNModel" "LSTM" 30 "log_return"
            ⟨5, 1, 6, 7, 0⟩ 2 64 [64, 32] 200 64 42 false false).hyperparamsJson) =
      ⟨(trainGlobalRecord (fun s => s) "RNNModel" "LSTM" 30 "log_return"
          ⟨5, 1, 6, 7, 0⟩ 2 64 [64, 32] 200 64 42 false false).modelName,
        (trainGlobalRecord (fun s => s) "RNNModel" "LSTM" 30 "log_return"
          ⟨5, 1, 6, 7, 0⟩ 2 64 [64, 32] 200 64 42 false false).workDir,
        (trainGlobalRecord (fun s => s) "RNNModel" "LSTM" 30 "log_return"
          ⟨5, 1, 6, 7, 0⟩ 2 64 [64, 32] 200 64 42 false false).artifactPathPt⟩ := by
  have h := trainGlobalRecord_effective_consistency (fun s => s) "RNNModel" "LSTM" 30
    "log_return" ⟨5, 1, 6, 7, 0⟩ 2 64 [64, 32] 200 64 42 false false _ rfl
  exact ⟨h.1, h.2.2.2.1, h.2.2.2.2 (Or.inl rfl)⟩

set_option maxRecDepth 40000 in
/-- C7 counterexample: a reachable sizing with resolved split one half
(series of 20 return points, block family, `min_required = 10`) whose
fit rejects validation.  The stored record then carries
`val_split = 0`, but the stored `model_name` still hashes the pre-drop
record with `val_split = 1/2`: the canonical key of the stored
hyperparameters differs from the stored registry identity, refuting the
claimed mutual consistency. -/
theorem trainGlobalRecord_hash_inconsistency_counterexample :
    resolveSizingGlobal "BlockRNNModel" 20 5 5 1 (mkRat 1 2) =
      ⟨5, 5, 1, 10, mkRat 1 2⟩ ∧
    (trainGlobalRecord (fun s => s) "BlockRNNModel" "LSTM" 30 "log_return"
        ⟨5, 5, 1, 10, mkRat 1 2⟩ 2 64 [64, 32] 200 64 42 true true).hyperparamsJson.valSplit
      = 0 ∧
    canonicalModelKey (fun s => s) "global_shared" "BlockRNNModel" "LSTM" 30 "log_return"
        (effHyperparamsToConfig
          (trainGlobalRecord (fun s => s) "BlockRNNModel" "LSTM" 30 "log_return"
            ⟨5, 5, 1, 10, mkRat 1 2⟩ 2 64 [64, 32] 200 64 42 true true).hyperparamsJson) ≠
      ⟨(trainGlobalRecord (fun s => s) "BlockRNNModel" "LSTM" 30 "log_return"
          ⟨5, 5, 1, 10, mkRat 1 2⟩ 2 64 [64, 32] 200 64 42 true true).modelName,
        (trainGlobalRecord (fun s => s) "BlockRNNModel" "LSTM" 30 "log_return"
          ⟨5, 5, 1, 10, mkRat 1 2⟩ 2 64 [64, 32] 200 64 42 true true).workDir,
        (trainGlobalRecord (fun s => s) "BlockRNNModel" "LSTM" 30 "log_return"
          ⟨5, 5, 1, 10, mkRat 1 2⟩ 2 64 [64, 32] 200 64 42 true true).artifactPathPt⟩ := by
  refine ⟨?_, ?_, ?_⟩
  · have hbeq : (("BlockRNNModel" : String) == "RNNModel") = false := by rfl
    have hbne : (("BlockRNNModel" : String) = "RNNModel") = False :=
      eq_false (by decide)
    have hval : resolveValSplit (1 / 2 : ℚ) 20 10 = 1 / 2 := by
      norm_num [resolveValSplit]
    norm_num [resolveSizingGlobal, resolveSizingGlobal1, hval, Rat.mkRat_eq_div,
      resolveChunkLengths, resolveTrainingLength, minRequiredLengthFamily, hbeq, hbne]
  · rfl
  · decide
